import Mathlib

/-!
Shallow embedding of `build_pytorch.py`: a single-host build orchestrator that
resolves a dependency-bundling manifest, locates the external `manywheel`
toolchain by target version, generates a wrapper script exporting the whole
process environment, runs it once per requested Python version, and salvages
wheel artifacts from a prioritized list of locations after every attempt.

Python strings are modelled as Lean `String`s; `str.split` on a one-character
separator, `";".join`, the substring test `in`, and `int()` on canonical digit
strings are given explicit executable models below.  Subprocess exit statuses
and filesystem contents are supplied by oracle fields of explicit world/state
records, and the side effects of `main` are recorded as an event trace.
-/

namespace BuildPytorch

/-- Helper for the Python substring test: does `hay` start with `needle`? -/
def listStartsWith : List Char → List Char → Bool
  | _, [] => true
  | [], _ :: _ => false
  | a :: as, b :: bs => (a == b) && listStartsWith as bs

/-- Model of Python `needle in hay` membership on strings, via char lists. -/
def listContainsSub : List Char → List Char → Bool
  | [], needle => needle.isEmpty
  | a :: rest, needle => listStartsWith (a :: rest) needle || listContainsSub rest needle

/-- Python `needle in hay` (substring containment test). -/
def strContains (hay needle : String) : Bool :=
  listContainsSub hay.toList needle.toList

/-- Python `s.split(c)` for a one-character separator `c`: splits at every
occurrence, keeping empty pieces, so `"".split(c) = [""]`. -/
def splitOnChar (c : Char) (s : String) : List String :=
  (s.toList.splitOn c).map String.mk

/-- Python `sep.join(xs)`. -/
def pyJoin (sep : String) (xs : List String) : String :=
  match xs with
  | [] => ""
  | x :: rest => rest.foldl (fun acc y => acc ++ sep ++ y) x

/-- Python `int(s)`, restricted to canonical (non-empty, all-digit) strings;
other strings raise `ValueError`, modelled as `none`. -/
def pyInt (s : String) : Option Nat :=
  if s.toList ≠ [] ∧ s.toList.all Char.isDigit then
    some (s.toList.foldl (fun n c => 10 * n + (c.toNat - 48)) 0)
  else none

/-- The ambient process environment (`os.environ`), as an association list. -/
abbrev Env := List (String × String)

/-- Python `os.environ.get(k, d)`. -/
def envGet (env : Env) (k d : String) : String :=
  match env.lookup k with
  | some v => v
  | none => d

/-- Python `os.environ[k] = v`: the new binding shadows/replaces any old one. -/
def envSet (env : Env) (k v : String) : Env :=
  (k, v) :: env.filter (fun p => p.1 != k)

/-- The `cuda_libs` table of `setup_dependency_bundling` (lines 94-109):
the fixed, ordered (source path, target soname) pairs bundled for CUDA 11.8. -/
def cuda_libs : List (String × String) :=
  [("/usr/local/cuda/lib64/libcudnn_adv.so.9", "libcudnn_adv.so.9"),
   ("/usr/local/cuda/lib64/libcudnn_cnn.so.9", "libcudnn_cnn.so.9"),
   ("/usr/local/cuda/lib64/libcudnn_graph.so.9", "libcudnn_graph.so.9"),
   ("/usr/local/cuda/lib64/libcudnn_ops.so.9", "libcudnn_ops.so.9"),
   ("/usr/local/cuda/lib64/libcudnn_engines_runtime_compiled.so.9",
    "libcudnn_engines_runtime_compiled.so.9"),
   ("/usr/local/cuda/lib64/libcudnn_engines_precompiled.so.9",
    "libcudnn_engines_precompiled.so.9"),
   ("/usr/local/cuda/lib64/libcudnn_heuristic.so.9", "libcudnn_heuristic.so.9"),
   ("/usr/local/cuda/lib64/libcudnn.so.9", "libcudnn.so.9"),
   ("/usr/local/cuda/lib64/libcublas.so.11", "libcublas.so.11"),
   ("/usr/local/cuda/lib64/libcublasLt.so.11", "libcublasLt.so.11"),
   ("/usr/local/cuda/lib64/libcudart.so.11.0", "libcudart.so.11.0"),
   ("/usr/local/cuda/lib64/libnvToolsExt.so.1", "libnvToolsExt.so.1"),
   ("/usr/local/cuda/lib64/libnvrtc.so.11.2", "libnvrtc.so.11.2"),
   ("/usr/local/cuda/lib64/libnvrtc-builtins.so.11.8", "libnvrtc-builtins.so.11.8")]

/-- OS-conditioned libgomp path (lines 74-80): family-A identities (CentOS,
AlmaLinux, RHEL) and the default use /usr/lib64, Ubuntu uses the multiarch dir. -/
def libgomp_path (os_name : String) : String :=
  if strContains os_name "CentOS Linux" || strContains os_name "AlmaLinux" ||
      strContains os_name "Red Hat Enterprise Linux" then
    "/usr/lib64/libgomp.so.1"
  else if strContains os_name "Ubuntu" then
    "/usr/lib/x86_64-linux-gnu/libgomp.so.1"
  else
    "/usr/lib64/libgomp.so.1"

/-- The deps_list/deps_soname pair built by `setup_dependency_bundling`
(lines 82-113), as a function of the detected OS name and of the
USE_CUSPARSELT flag value read from the environment: the libgomp base entry,
the optional cusparseLt entry, then the `cuda_libs` loop appending each pair
in lockstep. -/
def deps_lists (os_name use_cusparselt : String) : List String × List String :=
  let deps_list := [libgomp_path os_name]
  let deps_soname := ["libgomp.so.1"]
  let p :=
    if use_cusparselt = "1" then
      (deps_list ++ ["/usr/local/cuda/lib64/libcusparseLt.so.0"],
       deps_soname ++ ["libcusparseLt.so.0"])
    else
      (deps_list, deps_soname)
  cuda_libs.foldl (fun q lib => (q.1 ++ [lib.1], q.2 ++ [lib.2])) p

/-- The (path, soname) pairing intended by the source: the libgomp entry, the
optional cusparseLt entry, then the `cuda_libs` table itself. -/
def deps_pairs (os_name use_cusparselt : String) : List (String × String) :=
  (libgomp_path os_name, "libgomp.so.1")
    :: (if use_cusparselt = "1" then
          [("/usr/local/cuda/lib64/libcusparseLt.so.0", "libcusparseLt.so.0")]
        else []) ++ cuda_libs

/-- `setup_dependency_bundling` (lines 69-120) as an environment transformer:
reads USE_CUSPARSELT (default "1") from the process environment, then writes
DEPS_LIST and DEPS_SONAME, each list joined with ";", back into it. -/
def setup_dependency_bundling (os_name : String) (env : Env) : Env :=
  let p := deps_lists os_name (envGet env "USE_CUSPARSELT" "1")
  envSet (envSet env "DEPS_LIST" (pyJoin ";" p.1)) "DEPS_SONAME" (pyJoin ";" p.2)

/-- Flattening of a list-valued configuration value with ";" (line 116:
`";".join(deps_list)`), on char-list strings. -/
def joinSemis (xs : List (List Char)) : List Char :=
  [';'].intercalate xs

/-- Re-expansion of a flattened value by `value.split(";")` when the generated
script's array construct is emitted (line 254), on char-list strings. -/
def splitSemis (s : List Char) : List (List Char) :=
  s.splitOn ';'

/-- Python `major, minor = map(int, pytorch_version.split('.')[:2])`
(line 127): succeeds when the string has at least two '.'-separated
components whose first two are canonical integers; otherwise raises
`ValueError`, modelled as `none`. -/
def parseMajorMinor (v : String) : Option (Nat × Nat) :=
  match (splitOnChar '.' v).take 2 with
  | [a, b] =>
    match pyInt a, pyInt b with
    | some major, some minor => some (major, minor)
    | _, _ => none
  | _ => none

/-- Observable events of a run of `main`, in program order. -/
inductive Ev where
  /-- The `check_output` awk OS-detection subprocess run inside
  `setup_dependency_bundling` (line 74), via `setup_cuda_env`. -/
  | subprocOsDetect : Ev
  /-- A chmod subprocess run with `check=True` by `get_manywheel_path`. -/
  | subprocChmod (cmd : String) : Ev
  /-- The `git clone` of pytorch/builder at the given branch (line 143). -/
  | subprocClone (branch : String) : Ev
  /-- The `chmod +x /tmp/build_wrapper.sh` subprocess (line 267). -/
  | subprocChmodWrapper (idx : Nat) : Ev
  /-- The wrapper-script subprocess for iteration `idx` targeting Python
  version `pyVersion`; `ok` records whether it exited zero (line 272). -/
  | runBuild (idx : Nat) (pyVersion : String) (ok : Bool) : Ev
  /-- The `print` in the `except CalledProcessError` handler (lines 273-275). -/
  | logBuildFailure (idx : Nat) : Ev
  /-- The in-loop call of `ensure_wheels_are_saved` for iteration `idx`
  (line 278). -/
  | recoverScan (idx : Nat) : Ev
  /-- The post-loop call of `ensure_wheels_are_saved` (line 281). -/
  | finalRecoverScan : Ev
  deriving DecidableEq

/-- Python exceptions that can escape the modelled functions and make the
process exit non-zero. -/
inductive PyErr where
  /-- `ValueError` from `int()`/tuple unpacking in `get_manywheel_path`. -/
  | valueError : PyErr
  /-- `CalledProcessError` from a `check=True` subprocess that exited
  non-zero. -/
  | calledProcessError (cmd : String) : PyErr
  /-- An `OSError` raised by `shutil.copy` inside `ensure_wheels_are_saved`. -/
  | osError (src : String) : PyErr
  deriving DecidableEq

/-- `get_manywheel_path` (lines 122-149): parse the version; for 2.6+ chmod
the built-in `.ci` toolchain and return it, otherwise clone pytorch/builder at
branch `release/major.minor`, chmod it and return it.  `subprocOk` gives the
exit status of each `check=True` subprocess (by command string); the returned
event list records the subprocesses actually attempted, in order. -/
def get_manywheel_path (subprocOk : String → Bool) (pytorch_version : String) :
    List Ev × Except PyErr String :=
  match parseMajorMinor pytorch_version with
  | none => ([], .error .valueError)
  | some (major, minor) =>
    if major > 2 ∨ (major = 2 ∧ minor ≥ 6) then
      let cmd := "chmod -R +x /pytorch/.ci/manywheel/*.sh"
      if subprocOk cmd then
        ([Ev.subprocChmod cmd], .ok "/pytorch/.ci/manywheel")
      else
        ([Ev.subprocChmod cmd], .error (.calledProcessError cmd))
    else
      let branch := "release/" ++ toString major ++ "." ++ toString minor
      let cloneCmd := "git clone --depth=1 -b " ++ branch ++
        " https://github.com/pytorch/builder.git /pytorch_builder"
      if subprocOk cloneCmd then
        let cmd := "chmod -R +x /pytorch_builder/manywheel/*.sh"
        if subprocOk cmd then
          ([Ev.subprocClone branch, Ev.subprocChmod cmd], .ok "/pytorch_builder/manywheel")
        else
          ([Ev.subprocClone branch, Ev.subprocChmod cmd], .error (.calledProcessError cmd))
      else
        ([Ev.subprocClone branch], .error (.calledProcessError cloneCmd))

/-- The filesystem as seen by `ensure_wheels_are_saved`.  `finalWheels` holds
the base filenames present in PYTORCH_FINAL_PACKAGE_DIR; the other three lists
hold full paths of `*.whl` files in the internal wheelhouse, in /pytorch/dist,
and anywhere else on the system (as the last-resort `find` would list them).
`copyFails` is an oracle for `shutil.copy` raising on a given source (e.g. the
file vanished between listing and copy, or the copy itself errors);
`existsAtCopy` is the oracle for the `os.path.exists` re-check that guards the
copies of the last-resort pass only. -/
structure FS where
  internalWheels : List String
  distWheels : List String
  finalWheels : List String
  systemTorchWheels : List String
  copyFails : String → Bool
  existsAtCopy : String → Bool

/-- `PYTORCH_FINAL_PACKAGE_DIR` as set by `setup_cuda_env` (line 34). -/
def final_package_dir : String := "/remote/wheelhouse118"

/-- Python `os.path.basename` for the paths at hand: the last '/'-separated
component. -/
def basename (p : String) : String :=
  (splitOnChar '/' p).getLastD ""

/-- Effect of one successful `shutil.copy(src, final_package_dir/basename src)`
on the set of base filenames present in the final directory: overwriting an
existing file of the same name leaves the name set unchanged. -/
def addBase (final : List String) (src : String) : List String :=
  if basename src ∈ final then final else final ++ [basename src]

/-- `shutil.copy` of `src` into the final directory; raises (per the
`copyFails` oracle) or updates the final directory contents. -/
def copyToFinal (fs : FS) (src : String) : Except PyErr FS :=
  if fs.copyFails src then .error (.osError src)
  else .ok { fs with finalWheels := addBase fs.finalWheels src }

/-- The copy loops of recovery passes 1 and 2 (lines 167-170 and 181-184):
every listed wheel is copied unconditionally; the first raising copy aborts
the whole function. -/
def copyAllToFinal (fs : FS) : List String → Except PyErr FS
  | [] => .ok fs
  | s :: rest => do copyAllToFinal (← copyToFinal fs s) rest

/-- The copy loop of the last-resort pass 4 (lines 205-209): each copy is
guarded by `os.path.exists`, so a vanished source is skipped, but a copy that
does raise still aborts the function. -/
def copyAllExisting (fs : FS) : List String → Except PyErr FS
  | [] => .ok fs
  | s :: rest => do
    let fs' ← if fs.existsAtCopy s then copyToFinal fs s else pure fs
    copyAllExisting fs' rest

/-- `ensure_wheels_are_saved` (lines 151-209).  Pass 1: copy every
`/wheelhouse118/*.whl`; pass 2: copy every `/pytorch/dist/*.whl`; pass 3:
re-glob the final directory and report; pass 4 (only if it is still empty):
`find / -name '*.whl'`, keep the paths containing "torch", and copy those that
still exist.  The `find` output is modelled as the wheels of the three known
locations plus `systemTorchWheels`. -/
def ensure_wheels_are_saved (fs : FS) : Except PyErr FS :=
  Except.bind
    (if fs.internalWheels ≠ [] then copyAllToFinal fs fs.internalWheels else pure fs)
    (fun fs1 =>
      Except.bind
        (if fs1.distWheels ≠ [] then copyAllToFinal fs1 fs1.distWheels else pure fs1)
        (fun fs2 =>
          if fs2.finalWheels ≠ [] then
            pure fs2
          else
            copyAllExisting fs2
              ((fs2.internalWheels ++ fs2.distWheels ++
                  fs2.finalWheels.map (fun b => final_package_dir ++ "/" ++ b) ++
                  fs2.systemTorchWheels).filter (fun p => strContains p "torch"))))

/-- One line (one `f.write` payload) of the generated wrapper script
(lines 242-264), with its exact text recovered by `SLine.render`. -/
inductive SLine where
  /-- The shebang line (line 243). -/
  | shebang : SLine
  /-- The strictness line `set -ex` plus blank line (line 244). -/
  | setex : SLine
  /-- `key=(` opening a bash array construct (line 255). -/
  | arrayOpen (key : String) : SLine
  /-- One quoted array element on its own line (line 257). -/
  | arrayItem (item : String) : SLine
  /-- The `)` closing an array construct (line 258). -/
  | arrayClose : SLine
  /-- `export key` after an array construct (line 259). -/
  | exportKey (key : String) : SLine
  /-- A scalar `export key="value"` line (line 261). -/
  | exportAssign (key value : String) : SLine
  /-- The final `cd /pytorch && .../build_common.sh` directive (line 264). -/
  | invokeToolchain (manywheelPath : String) : SLine
  deriving DecidableEq

/-- The exact text each script line is written with in the source. -/
def SLine.render : SLine → String
  | .shebang => "#!/bin/bash\n"
  | .setex => "set -ex\n\n"
  | .arrayOpen k => k ++ "=(\n"
  | .arrayItem it => "    \"" ++ it ++ "\"\n"
  | .arrayClose => ")\n"
  | .exportKey k => "export " ++ k ++ "\n"
  | .exportAssign k v => "export " ++ k ++ "=\"" ++ v ++ "\"\n"
  | .invokeToolchain p => "\ncd /pytorch && " ++ p ++ "/build_common.sh\n"

/-- The environment keys skipped by the generator (line 249). -/
def skipKeys : List String := ["_", "PWD", "OLDPWD", "LS_COLORS"]

/-- The lines emitted for one environment entry (lines 247-261): skipped keys
emit nothing, DEPS_LIST and DEPS_SONAME emit a bash array construct built from
the ";"-split of the value followed by an export of the key, and every other
key emits a single double-quoted scalar export. -/
def emitEnvLines (kv : String × String) : List SLine :=
  if kv.1 ∈ skipKeys then []
  else if kv.1 = "DEPS_LIST" ∨ kv.1 = "DEPS_SONAME" then
    SLine.arrayOpen kv.1 :: (splitOnChar ';' kv.2).map SLine.arrayItem ++
      [SLine.arrayClose, SLine.exportKey kv.1]
  else
    [SLine.exportAssign kv.1 kv.2]

/-- The whole wrapper script `/tmp/build_wrapper.sh` written per iteration
(lines 242-264): shebang, strictness, one block per environment entry in
iteration order, then the toolchain invocation. -/
def buildWrapperScript (env : Env) (manywheelPath : String) : List SLine :=
  SLine.shebang :: SLine.setex :: env.flatMap emitEnvLines ++
    [SLine.invokeToolchain manywheelPath]

/-- The keys for which the generated script contains an `export` statement
(either form). -/
def exportedKeys (lines : List SLine) : List String :=
  lines.filterMap fun l =>
    match l with
    | SLine.exportKey k => some k
    | SLine.exportAssign k _ => some k
    | _ => none

/-- The oracles a run of `main` consults: the exit status of the OS-detection
`check_output` call, the exit status of each other `check=True` subprocess (by
command string), the exit status of the wrapper-script run of each iteration,
and the initial filesystem. -/
structure World where
  osDetectOk : Bool
  subprocOk : String → Bool
  buildOk : Nat → Bool
  fs : FS

/-- The per-Python-version loop of `main` (lines 237-278), from iteration
`idx` on: write the wrapper script (file write, not evented), chmod it
(`check=True`), run it catching only `CalledProcessError` and logging a
failure, then call `ensure_wheels_are_saved`; an exception escaping the chmod
or the recovery scan aborts the whole loop. -/
def mainLoop (w : World) (idx : Nat) (pyVersions : List String) (fs : FS) :
    List Ev × Except PyErr FS :=
  match pyVersions with
  | [] => ([], .ok fs)
  | v :: rest =>
    if w.subprocOk "chmod +x /tmp/build_wrapper.sh" then
      let ok := w.buildOk idx
      let evs := Ev.subprocChmodWrapper idx :: Ev.runBuild idx v ok ::
        (if ok then [] else [Ev.logBuildFailure idx])
      match ensure_wheels_are_saved fs with
      | .error e => (evs ++ [Ev.recoverScan idx], .error e)
      | .ok fs' =>
        let r := mainLoop w (idx + 1) rest fs'
        (evs ++ [Ev.recoverScan idx] ++ r.1, r.2)
    else
      ([Ev.subprocChmodWrapper idx], .error (.calledProcessError "chmod +x /tmp/build_wrapper.sh"))

/-- `main` (lines 211-283) as a trace semantics over the claim-relevant
effects.  `setup_cuda_env` runs first and, through
`setup_dependency_bundling`, performs the OS-detection subprocess; then
`get_manywheel_path` parses the version and runs its subprocesses; then the
per-version loop; then one final `ensure_wheels_are_saved`.  The environment
bookkeeping of `setup_cuda_env`/`main` is modelled separately by the
resolver/generator definitions above and does not influence control flow.
An `.ok` result is a process exit status of zero; an uncaught exception
(`.error`) is a non-zero exit status. -/
def main (w : World) (pytorch_version : String) (pyVersions : List String) :
    List Ev × Except PyErr FS :=
  if w.osDetectOk then
    let loc := get_manywheel_path w.subprocOk pytorch_version
    match loc.2 with
    | .error e => (Ev.subprocOsDetect :: loc.1, .error e)
    | .ok _ =>
      let lp := mainLoop w 0 pyVersions w.fs
      match lp.2 with
      | .error e => (Ev.subprocOsDetect :: loc.1 ++ lp.1, .error e)
      | .ok fs' =>
        match ensure_wheels_are_saved fs' with
        | .error e =>
          (Ev.subprocOsDetect :: loc.1 ++ lp.1 ++ [Ev.finalRecoverScan], .error e)
        | .ok fs'' =>
          (Ev.subprocOsDetect :: loc.1 ++ lp.1 ++ [Ev.finalRecoverScan], .ok fs'')
  else
    ([Ev.subprocOsDetect], .error (.calledProcessError "os-release detection"))

/-- The events one loop iteration contributes when its chmod and its recovery
scan succeed (used only to state theorems about `mainLoop` traces). -/
def iterEvents (w : World) (idx : Nat) (v : String) : List Ev :=
  Ev.subprocChmodWrapper idx :: Ev.runBuild idx v (w.buildOk idx) ::
    (if w.buildOk idx then [] else [Ev.logBuildFailure idx]) ++ [Ev.recoverScan idx]

/-- The final-directory contents after an `ensure_wheels_are_saved` run in
which no copy raises: base names of passes 1 and 2 accumulate into the final
directory; if it is still empty, the guarded last-resort copies run. -/
def recoverFinal (fs : FS) : List String :=
  let f1 := fs.internalWheels.foldl addBase fs.finalWheels
  let f2 := fs.distWheels.foldl addBase f1
  if f2 ≠ [] then f2
  else
    let found := (fs.internalWheels ++ fs.distWheels ++
        f2.map (fun b => final_package_dir ++ "/" ++ b) ++
        fs.systemTorchWheels).filter (fun p => strContains p "torch")
    found.foldl (fun f s => if fs.existsAtCopy s then addBase f s else f) f2

/-- The filesystem after a raise-free `ensure_wheels_are_saved` run: only the
final directory changes. -/
def recoverStep (fs : FS) : FS :=
  { fs with finalWheels := recoverFinal fs }

/-- A filesystem with no wheel anywhere, in which every copy would succeed. -/
def emptyFS : FS :=
  { internalWheels := [], distWheels := [], finalWheels := [],
    systemTorchWheels := [], copyFails := fun _ => false,
    existsAtCopy := fun _ => false }

/-- A filesystem in which the internal wheelhouse glob lists one wheel whose
copy raises (e.g. the file was removed between the glob and the copy). -/
def vanishedFS : FS :=
  { internalWheels := ["/wheelhouse118/torch-2.7.0.whl"], distWheels := [],
    finalWheels := [], systemTorchWheels := [],
    copyFails := fun _ => true, existsAtCopy := fun _ => true }

/-- A filesystem in which the three known locations are empty and the
last-resort search lists one torch wheel whose existence re-check fails
(and whose copy would raise if attempted). -/
def bareFS : FS :=
  { internalWheels := [], distWheels := [], finalWheels := [],
    systemTorchWheels := ["/tmp/torch-2.7.0.whl"],
    copyFails := fun _ => true, existsAtCopy := fun _ => false }

/-- A filesystem holding one internal wheel and one dist wheel, with all
copies succeeding. -/
def twoWheelFS : FS :=
  { internalWheels := ["/wheelhouse118/torch-2.7.0-cp310.whl"],
    distWheels := ["/pytorch/dist/torch-2.7.0-cp311.whl"],
    finalWheels := [], systemTorchWheels := [],
    copyFails := fun _ => false, existsAtCopy := fun _ => true }

/-- A world whose infrastructure (OS detection, chmod/clone subprocesses,
recovery copies) is healthy but in which every wrapper-script run exits
non-zero and no wheel is ever produced. -/
def failingBuildWorld : World :=
  { osDetectOk := true, subprocOk := fun _ => true, buildOk := fun _ => false,
    fs := emptyFS }

/-- A small sample of the ambient environment as the generator would see it:
one skipped key, one array-valued key, one ordinary scalar key. -/
def demoEnv : Env :=
  [("PWD", "/"), ("DEPS_LIST", "/a;/b"), ("PYTORCH_BUILD_VERSION", "2.7.0")]

theorem lookup_filter_ne (env : Env) (k k' : String) (h : k ≠ k') :
    (env.filter (fun p => p.1 != k')).lookup k = env.lookup k := by
  induction env with
  | nil => rfl
  | cons p rest ih =>
    obtain ⟨k1, v1⟩ := p
    by_cases hp : k1 = k'
    · subst hp
      have hb : (k == k1) = false := beq_eq_false_iff_ne.mpr h
      simp [List.filter_cons, List.lookup, ih, hb]
    · have hpb : ((k1, v1).1 != k') = true := by simpa using hp
      simp only [List.filter_cons, hpb, if_true]
      by_cases hk : k = k1
      · subst hk; simp [List.lookup]
      · have hb : (k == k1) = false := beq_eq_false_iff_ne.mpr hk
        simp [List.lookup, hb, ih]

theorem envGet_envSet_same (env : Env) (k v d : String) :
    envGet (envSet env k v) k d = v := by
  simp [envGet, envSet, List.lookup]

theorem envGet_envSet_ne (env : Env) (k' v k d : String) (h : k ≠ k') :
    envGet (envSet env k' v) k d = envGet env k d := by
  have hb : (k == k') = false := beq_eq_false_iff_ne.mpr h
  simp [envGet, envSet, List.lookup, hb, lookup_filter_ne env k k' h]

/-- C8 counterexample: the Dependency Bundle Resolver is not mutation-free.
Run against OS identity "Ubuntu" and an empty ambient environment, it writes
the joined manifest under DEPS_LIST into the process environment, so the
environment after the call differs from the environment before it. -/
theorem setup_dependency_bundling_mutates_env :
    envGet (setup_dependency_bundling "Ubuntu" []) "DEPS_LIST" "(unset)" ≠ "(unset)" := by
  decide

/-- C8 (amended): the Resolver is a deterministic, total function of the OS
identity and the USE_CUSPARSELT flag read from the environment, but it works
by mutating the ambient process environment: its only effect is to write the
two joined manifest values under DEPS_LIST and DEPS_SONAME, and every other
key keeps its previous value. -/
theorem setup_dependency_bundling_frame (os_name : String) (env : Env)
    (k d : String) (h1 : k ≠ "DEPS_LIST") (h2 : k ≠ "DEPS_SONAME") :
    envGet (setup_dependency_bundling os_name env) k d = envGet env k d ∧
    envGet (setup_dependency_bundling os_name env) "DEPS_LIST" d =
      pyJoin ";" (deps_lists os_name (envGet env "USE_CUSPARSELT" "1")).1 ∧
    envGet (setup_dependency_bundling os_name env) "DEPS_SONAME" d =
      pyJoin ";" (deps_lists os_name (envGet env "USE_CUSPARSELT" "1")).2 := by
  simp only [setup_dependency_bundling]
  refine ⟨?_, ?_, ?_⟩
  · rw [envGet_envSet_ne _ _ _ _ _ h2, envGet_envSet_ne _ _ _ _ _ h1]
  · rw [envGet_envSet_ne _ _ _ _ _ (by decide), envGet_envSet_same]
  · rw [envGet_envSet_same]

theorem setup_dependency_bundling_frame_witness :
    envGet (setup_dependency_bundling "Ubuntu" [("USE_CUSPARSELT", "0"), ("HOME", "/root")])
        "HOME" "" =
      envGet [("USE_CUSPARSELT", "0"), ("HOME", "/root")] "HOME" "" ∧
    envGet (setup_dependency_bundling "Ubuntu" [("USE_CUSPARSELT", "0"), ("HOME", "/root")])
        "DEPS_LIST" "" =
      pyJoin ";" (deps_lists "Ubuntu"
        (envGet [("USE_CUSPARSELT", "0"), ("HOME", "/root")] "USE_CUSPARSELT" "1")).1 ∧
    envGet (setup_dependency_bundling "Ubuntu" [("USE_CUSPARSELT", "0"), ("HOME", "/root")])
        "DEPS_SONAME" "" =
      pyJoin ";" (deps_lists "Ubuntu"
        (envGet [("USE_CUSPARSELT", "0"), ("HOME", "/root")] "USE_CUSPARSELT" "1")).2 :=
  setup_dependency_bundling_frame "Ubuntu" [("USE_CUSPARSELT", "0"), ("HOME", "/root")]
    "HOME" "" (by decide) (by decide)

/-- C3: for every OS identity and USE_CUSPARSELT flag value, the two manifest
lists produced by the Resolver have equal length, and zipping them yields
exactly the intended (source path, target soname) pair list — equivalently,
the two lists are the componentwise projections of that pair list, so entries
are only ever appended in matched pairs. -/
theorem deps_lists_pairing (os_name flag : String) :
    (deps_lists os_name flag).1.length = (deps_lists os_name flag).2.length ∧
    (deps_lists os_name flag).1.zip (deps_lists os_name flag).2 =
      deps_pairs os_name flag ∧
    (deps_lists os_name flag).1 = (deps_pairs os_name flag).map Prod.fst ∧
    (deps_lists os_name flag).2 = (deps_pairs os_name flag).map Prod.snd := by
  by_cases h : flag = "1" <;>
    simp [deps_lists, deps_pairs, cuda_libs, h]

/-- C4 counterexample: the claim quantifies over every list of non-empty
semicolon-free strings, which includes the empty list; there the round trip
fails, because joining [] gives the empty string and splitting the empty
string gives [""], a one-element list. -/
theorem joinSemis_splitSemis_empty_cex :
    splitSemis (joinSemis []) ≠ [] := by decide

/-- C4 (amended): for every NON-EMPTY ordered list of non-empty strings none
of which contains the semicolon delimiter, flattening with ";" and
re-expanding by splitting on ";" reproduces the original list exactly. -/
theorem joinSemis_splitSemis_roundtrip (xs : List (List Char)) (hne : xs ≠ [])
    (hx : ∀ s ∈ xs, s ≠ [] ∧ ';' ∉ s) :
    splitSemis (joinSemis xs) = xs :=
  List.splitOn_intercalate xs ';' (fun l hl => (hx l hl).2) hne

theorem joinSemis_splitSemis_roundtrip_witness :
    splitSemis (joinSemis [['/', 'a'], ['/', 'b']]) = [['/', 'a'], ['/', 'b']] :=
  joinSemis_splitSemis_roundtrip [['/', 'a'], ['/', 'b']] (by decide) (by decide)

/-- C2: for every version string that parses as major.minor[.patch] (with the
permission-grant and clone subprocesses succeeding), exactly one locator
branch fires, decided by the code's condition `major > 2 or (major == 2 and
minor >= 6)`, i.e. (major, minor) >= (2, 6) lexicographically: at or above
the threshold the fixed built-in location is returned and no clone event is
ever attempted; below it the externally provisioned location is returned
after cloning release branch "release/major.minor".  In particular "2.7.0"
yields the built-in location with no fetch, and "2.4.1" clones branch
"release/2.4". -/
theorem get_manywheel_path_branches (subprocOk : String → Bool)
    (hs : ∀ c, subprocOk c = true) (v : String) (mj mn : Nat)
    (hp : parseMajorMinor v = some (mj, mn)) :
    ((mj > 2 ∨ (mj = 2 ∧ mn ≥ 6)) →
      get_manywheel_path subprocOk v =
        ([Ev.subprocChmod "chmod -R +x /pytorch/.ci/manywheel/*.sh"],
          .ok "/pytorch/.ci/manywheel") ∧
      ∀ b, Ev.subprocClone b ∉ (get_manywheel_path subprocOk v).1) ∧
    (¬(mj > 2 ∨ (mj = 2 ∧ mn ≥ 6)) →
      get_manywheel_path subprocOk v =
        ([Ev.subprocClone ("release/" ++ toString mj ++ "." ++ toString mn),
          Ev.subprocChmod "chmod -R +x /pytorch_builder/manywheel/*.sh"],
          .ok "/pytorch_builder/manywheel")) ∧
    get_manywheel_path subprocOk "2.7.0" =
      ([Ev.subprocChmod "chmod -R +x /pytorch/.ci/manywheel/*.sh"],
        .ok "/pytorch/.ci/manywheel") ∧
    get_manywheel_path subprocOk "2.4.1" =
      ([Ev.subprocClone "release/2.4",
        Ev.subprocChmod "chmod -R +x /pytorch_builder/manywheel/*.sh"],
        .ok "/pytorch_builder/manywheel") := by
  have h27 : parseMajorMinor "2.7.0" = some (2, 7) := by decide
  have h24 : parseMajorMinor "2.4.1" = some (2, 4) := by decide
  refine ⟨?_, ?_, ?_, ?_⟩
  · intro hge
    have heq : get_manywheel_path subprocOk v =
        ([Ev.subprocChmod "chmod -R +x /pytorch/.ci/manywheel/*.sh"],
          .ok "/pytorch/.ci/manywheel") := by
      simp only [get_manywheel_path, hp]
      rw [if_pos hge, if_pos (hs _)]
    exact ⟨heq, by simp [heq]⟩
  · intro hlt
    simp only [get_manywheel_path, hp]
    rw [if_neg hlt, if_pos (hs _), if_pos (hs _)]
  · simp only [get_manywheel_path, h27]
    rw [if_pos (by norm_num), if_pos (hs _)]
  · simp only [get_manywheel_path, h24]
    rw [if_neg (by norm_num), if_pos (hs _), if_pos (hs _)]
    have hb : ("release/" ++ toString 2 ++ "." ++ toString 4 : String) = "release/2.4" := by
      decide
    rw [hb]

theorem get_manywheel_path_branches_witness :
    ((2 > 2 ∨ (2 = 2 ∧ 7 ≥ 6)) →
      get_manywheel_path (fun _ => true) "2.7.0" =
        ([Ev.subprocChmod "chmod -R +x /pytorch/.ci/manywheel/*.sh"],
          .ok "/pytorch/.ci/manywheel") ∧
      ∀ b, Ev.subprocClone b ∉ (get_manywheel_path (fun _ => true) "2.7.0").1) ∧
    (¬(2 > 2 ∨ (2 = 2 ∧ 7 ≥ 6)) →
      get_manywheel_path (fun _ => true) "2.7.0" =
        ([Ev.subprocClone ("release/" ++ toString 2 ++ "." ++ toString 7),
          Ev.subprocChmod "chmod -R +x /pytorch_builder/manywheel/*.sh"],
          .ok "/pytorch_builder/manywheel")) ∧
    get_manywheel_path (fun _ => true) "2.7.0" =
      ([Ev.subprocChmod "chmod -R +x /pytorch/.ci/manywheel/*.sh"],
        .ok "/pytorch/.ci/manywheel") ∧
    get_manywheel_path (fun _ => true) "2.4.1" =
      ([Ev.subprocClone "release/2.4",
        Ev.subprocChmod "chmod -R +x /pytorch_builder/manywheel/*.sh"],
        .ok "/pytorch_builder/manywheel") :=
  get_manywheel_path_branches (fun _ => true) (fun _ => rfl) "2.7.0" 2 7 (by decide)

theorem mem_addBase (b : String) (f : List String) (s : String) (h : b ∈ f) :
    b ∈ addBase f s := by
  unfold addBase
  split
  · exact h
  · exact List.mem_append_left _ h

theorem basename_mem_addBase (f : List String) (s : String) :
    basename s ∈ addBase f s := by
  unfold addBase
  split
  · assumption
  · exact List.mem_append_right _ (List.mem_singleton.mpr rfl)

theorem mem_foldl_addBase (b : String) (l : List String) (f : List String)
    (h : b ∈ f) : b ∈ l.foldl addBase f := by
  induction l generalizing f with
  | nil => exact h
  | cons s rest ih => exact ih _ (mem_addBase b f s h)

theorem basename_mem_foldl_addBase (l : List String) (f : List String)
    (s : String) (h : s ∈ l) : basename s ∈ l.foldl addBase f := by
  induction l generalizing f with
  | nil => cases h
  | cons a rest ih =>
    rcases List.mem_cons.mp h with h' | h'
    · subst h'
      simp only [List.foldl_cons]
      exact mem_foldl_addBase _ _ _ (basename_mem_addBase f s)
    · simp only [List.foldl_cons]
      exact ih _ h'

theorem foldl_addBase_absorb (l : List String) (f : List String)
    (h : ∀ s ∈ l, basename s ∈ f) : l.foldl addBase f = f := by
  induction l with
  | nil => rfl
  | cons a rest ih =>
    have ha : addBase f a = f := by
      unfold addBase
      rw [if_pos (h a (List.mem_cons_self a rest))]
    simp only [List.foldl_cons, ha]
    exact ih fun s hs => h s (List.mem_cons_of_mem a hs)

theorem addBase_nodup (f : List String) (s : String) (h : f.Nodup) :
    (addBase f s).Nodup := by
  unfold addBase
  split
  · exact h
  · next hna => simpa [List.nodup_append] using ⟨h, hna⟩

theorem foldl_addBase_nodup (l : List String) (f : List String)
    (h : f.Nodup) : (l.foldl addBase f).Nodup := by
  induction l generalizing f with
  | nil => exact h
  | cons a rest ih => exact ih _ (addBase_nodup f a h)

theorem foldl_guardAddBase_nodup (c : String → Bool) (l : List String)
    (f : List String) (h : f.Nodup) :
    (l.foldl (fun f s => if c s then addBase f s else f) f).Nodup := by
  induction l generalizing f with
  | nil => exact h
  | cons a rest ih =>
    simp only [List.foldl_cons]
    refine ih _ ?_
    split
    · exact addBase_nodup _ _ h
    · exact h

theorem ok_bind {α β : Type} (a : α) (f : α → Except PyErr β) :
    (Except.ok a >>= f) = f a := rfl

theorem exceptBind_ok {α β : Type} (a : α) (f : α → Except PyErr β) :
    Except.bind (Except.ok a) f = f a := rfl

theorem exceptBind_pure {α β : Type} (a : α) (f : α → Except PyErr β) :
    Except.bind (pure a) f = f a := rfl

theorem copyAllToFinal_ok (fs : FS) (l : List String)
    (h : ∀ p, fs.copyFails p = false) :
    copyAllToFinal fs l =
      .ok { fs with finalWheels := l.foldl addBase fs.finalWheels } := by
  induction l generalizing fs with
  | nil => rfl
  | cons s rest ih =>
    have hc : copyToFinal fs s =
        .ok { fs with finalWheels := addBase fs.finalWheels s } := by
      simp [copyToFinal, h s]
    simp only [copyAllToFinal, hc, List.foldl_cons, ok_bind]
    exact ih _ h

theorem copyAllExisting_ok (fs : FS) (l : List String)
    (h : ∀ p, fs.copyFails p = false) :
    copyAllExisting fs l =
      .ok { fs with
            finalWheels :=
              l.foldl (fun f s => if fs.existsAtCopy s then addBase f s else f)
                fs.finalWheels } := by
  induction l generalizing fs with
  | nil => rfl
  | cons s rest ih =>
    by_cases he : fs.existsAtCopy s = true
    · have hc : copyToFinal fs s =
          .ok { fs with finalWheels := addBase fs.finalWheels s } := by
        simp [copyToFinal, h s]
      simp only [copyAllExisting, he, if_true, hc, List.foldl_cons, ok_bind]
      exact ih _ h
    · have he' : fs.existsAtCopy s = false := by simpa using he
      simp only [copyAllExisting, he', List.foldl_cons, Bool.false_eq_true,
        if_false, ok_bind]
      exact ih _ h

theorem ite_copyAllToFinal (fs : FS) (l : List String) :
    (if l ≠ [] then copyAllToFinal fs l else pure fs) = copyAllToFinal fs l := by
  by_cases hl : l = []
  · subst hl
    rw [if_neg (by simp)]
    rfl
  · rw [if_pos hl]

/-- When no copy raises, the scanner succeeds and its whole effect is
`recoverFinal` on the final directory. -/
theorem ensure_wheels_are_saved_ok (fs : FS) (h : ∀ p, fs.copyFails p = false) :
    ensure_wheels_are_saved fs = .ok (recoverStep fs) := by
  unfold ensure_wheels_are_saved
  rw [ite_copyAllToFinal, copyAllToFinal_ok fs _ h]
  simp only [exceptBind_ok]
  rw [ite_copyAllToFinal, copyAllToFinal_ok _ _ (by exact h)]
  simp only [exceptBind_ok]
  unfold recoverStep recoverFinal
  dsimp only
  split
  · next hne => rfl
  · next hne => rw [copyAllExisting_ok _ _ (by exact h)]

/-- On a filesystem with nothing in the internal wheelhouse and nothing in
the dist directory, the scanner's effect reduces to the guarded last-resort
pass over the system-wide search results. -/
theorem recoverFinal_no_sources (fs : FS) (hI : fs.internalWheels = [])
    (hD : fs.distWheels = []) :
    recoverFinal fs =
      (if fs.finalWheels ≠ [] then fs.finalWheels else
        (fs.systemTorchWheels.filter (fun p => strContains p "torch")).foldl
          (fun f s => if fs.existsAtCopy s then addBase f s else f)
          fs.finalWheels) := by
  simp only [recoverFinal]
  rw [hI, hD]
  simp only [List.foldl_nil, List.nil_append]
  split
  · rfl
  · next hne =>
    have hF0 : fs.finalWheels = [] := by
      by_contra hcon
      exact hne hcon
    rw [hF0]
    simp

/-- A second raise-free scan of the unchanged filesystem leaves the final
directory exactly as the first scan left it. -/
theorem recoverFinal_fixpoint (fs : FS) :
    recoverFinal (recoverStep fs) = recoverFinal fs := by
  by_cases hf2 :
      fs.distWheels.foldl addBase (fs.internalWheels.foldl addBase fs.finalWheels) = []
  · have hI : fs.internalWheels = [] := by
      cases hIc : fs.internalWheels with
      | nil => rfl
      | cons s rest =>
        exfalso
        have hm : basename s ∈
            fs.distWheels.foldl addBase (fs.internalWheels.foldl addBase fs.finalWheels) :=
          mem_foldl_addBase _ _ _
            (basename_mem_foldl_addBase _ _ s (by rw [hIc]; exact List.mem_cons_self s rest))
        rw [hf2] at hm
        cases hm
    have hD : fs.distWheels = [] := by
      cases hDc : fs.distWheels with
      | nil => rfl
      | cons s rest =>
        exfalso
        have hm : basename s ∈
            fs.distWheels.foldl addBase (fs.internalWheels.foldl addBase fs.finalWheels) :=
          basename_mem_foldl_addBase _ _ s (by rw [hDc]; exact List.mem_cons_self s rest)
        rw [hf2] at hm
        cases hm
    have hF0 : fs.finalWheels = [] := by
      have h' := hf2
      rw [hI, hD] at h'
      simpa using h'
    have hR : recoverFinal fs =
        (fs.systemTorchWheels.filter (fun p => strContains p "torch")).foldl
          (fun f s => if fs.existsAtCopy s then addBase f s else f) [] := by
      rw [recoverFinal_no_sources fs hI hD, hF0]
      simp
    rw [recoverFinal_no_sources (recoverStep fs) hI hD]
    dsimp only [recoverStep]
    by_cases hF : recoverFinal fs = []
    · rw [hF]
      rw [if_neg (by simp)]
      exact hR.symm.trans hF
    · rw [if_pos hF]
  · have habsI : ∀ s ∈ fs.internalWheels, basename s ∈
        fs.distWheels.foldl addBase (fs.internalWheels.foldl addBase fs.finalWheels) :=
      fun s hs => mem_foldl_addBase _ _ _ (basename_mem_foldl_addBase _ _ s hs)
    have habsD : ∀ s ∈ fs.distWheels, basename s ∈
        fs.distWheels.foldl addBase (fs.internalWheels.foldl addBase fs.finalWheels) :=
      fun s hs => basename_mem_foldl_addBase _ _ s hs
    conv_rhs => rw [recoverFinal]
    simp only [recoverStep, recoverFinal]
    rw [if_pos hf2]
    rw [foldl_addBase_absorb _ _ habsI, foldl_addBase_absorb _ _ habsD]
    rw [if_pos hf2]

theorem copyAllExisting_skipAll (fs : FS) (l : List String)
    (h : ∀ p, fs.existsAtCopy p = false) :
    copyAllExisting fs l = .ok fs := by
  induction l with
  | nil => rfl
  | cons s rest ih =>
    simp only [copyAllExisting, h s, Bool.false_eq_true, if_false, ok_bind]
    exact ih

theorem recoverFinal_nodup (fs : FS) (h : fs.finalWheels.Nodup) :
    (recoverFinal fs).Nodup := by
  simp only [recoverFinal]
  split
  · exact foldl_addBase_nodup _ _ (foldl_addBase_nodup _ _ h)
  · exact foldl_guardAddBase_nodup _ _ _
      (foldl_addBase_nodup _ _ (foldl_addBase_nodup _ _ h))

/-- C6 counterexample: the Artifact Recovery Scanner can fail.  On a
filesystem whose internal wheelhouse glob lists one wheel whose copy raises
(for instance, the file was removed between the glob and the copy), the
first-pass copy is unguarded, so the exception escapes
`ensure_wheels_are_saved` instead of being tolerated. -/
theorem ensure_wheels_are_saved_raises :
    ensure_wheels_are_saved vanishedFS =
      .error (.osError "/wheelhouse118/torch-2.7.0.whl") := rfl

/-- C6 (amended): only the last-resort pass is tolerant, and only through its
existence re-check.  If the internal wheelhouse lists a wheel whose copy
raises, the exception propagates out of the scanner (first conjunct); when
the first three passes find nothing, the last-resort pass skips every source
whose existence re-check fails, and the scan completes without error even
though every copy would raise (second conjunct). -/
theorem ensure_wheels_failure_modes (fs : FS) (wheel : String) :
    (fs.internalWheels = [wheel] → fs.copyFails wheel = true →
      ensure_wheels_are_saved fs = .error (.osError wheel)) ∧
    (fs.internalWheels = [] → fs.distWheels = [] → fs.finalWheels = [] →
      (∀ p, fs.existsAtCopy p = false) →
      ensure_wheels_are_saved fs = .ok fs) := by
  constructor
  · intro hi hc
    unfold ensure_wheels_are_saved
    rw [hi, if_pos (by simp)]
    have hcp : copyToFinal fs wheel = .error (.osError wheel) := by
      simp [copyToFinal, hc]
    have hfail : copyAllToFinal fs [wheel] = .error (.osError wheel) := by
      simp only [copyAllToFinal, hcp]
      rfl
    rw [hfail]
    rfl
  · intro h1 h2 h3 h4
    unfold ensure_wheels_are_saved
    rw [h1, if_neg (by simp)]
    simp only [exceptBind_pure]
    rw [h2, if_neg (by simp)]
    simp only [exceptBind_pure]
    rw [h3, if_neg (by simp)]
    rw [h1, h2]
    exact copyAllExisting_skipAll _ _ h4

theorem ensure_wheels_failure_modes_witness :
    ensure_wheels_are_saved vanishedFS =
      .error (.osError "/wheelhouse118/torch-2.7.0.whl") ∧
    ensure_wheels_are_saved bareFS = .ok bareFS :=
  ⟨(ensure_wheels_failure_modes vanishedFS "/wheelhouse118/torch-2.7.0.whl").1 rfl rfl,
   (ensure_wheels_failure_modes bareFS "w").2 rfl rfl rfl (fun _ => rfl)⟩

/-- C9: recovery is idempotent.  On any filesystem whose copies succeed, the
scan completes; running the scanner a second time against the unchanged
filesystem succeeds and returns exactly the same state, so the final artifact
set is unchanged (re-copying an identical file is a no-op); and no duplicate
artifact names are created in the final directory. -/
theorem ensure_wheels_idempotent (fs : FS) (h : ∀ p, fs.copyFails p = false) :
    ∃ fs1, ensure_wheels_are_saved fs = .ok fs1 ∧
      ensure_wheels_are_saved fs1 = .ok fs1 ∧
      (fs.finalWheels.Nodup → fs1.finalWheels.Nodup) := by
  refine ⟨recoverStep fs, ensure_wheels_are_saved_ok fs h, ?_, ?_⟩
  · rw [ensure_wheels_are_saved_ok (recoverStep fs) (by exact h)]
    have hfix : recoverStep (recoverStep fs) = recoverStep fs := by
      show { recoverStep fs with finalWheels := recoverFinal (recoverStep fs) } =
        recoverStep fs
      rw [recoverFinal_fixpoint]
      rfl
    rw [hfix]
  · intro hnd
    exact recoverFinal_nodup fs hnd

theorem ensure_wheels_idempotent_witness :
    ∃ fs1, ensure_wheels_are_saved twoWheelFS = .ok fs1 ∧
      ensure_wheels_are_saved fs1 = .ok fs1 ∧
      (twoWheelFS.finalWheels.Nodup → fs1.finalWheels.Nodup) :=
  ensure_wheels_idempotent twoWheelFS (fun _ => rfl)

theorem exportedKeys_append (l1 l2 : List SLine) :
    exportedKeys (l1 ++ l2) = exportedKeys l1 ++ exportedKeys l2 :=
  List.filterMap_append l1 l2 _

theorem exportedKeys_arrayItems (its : List String) :
    exportedKeys (its.map SLine.arrayItem) = [] := by
  induction its with
  | nil => rfl
  | cons a rest ih => exact ih

theorem exportedKeys_emitEnvLines (kv : String × String) :
    exportedKeys (emitEnvLines kv) =
      if kv.1 ∈ skipKeys then [] else [kv.1] := by
  unfold emitEnvLines
  split
  · rfl
  · split
    · show exportedKeys ([SLine.arrayOpen kv.1] ++
        ((splitOnChar ';' kv.2).map SLine.arrayItem ++
          [SLine.arrayClose, SLine.exportKey kv.1])) = [kv.1]
      rw [exportedKeys_append, exportedKeys_append, exportedKeys_arrayItems]
      rfl
    · rfl

theorem emitEnvLines_infix_flatMap (env : Env) (kv : String × String)
    (h : kv ∈ env) : emitEnvLines kv <:+: env.flatMap emitEnvLines := by
  induction env with
  | nil => cases h
  | cons a rest ih =>
    rcases List.mem_cons.mp h with h' | h'
    · subst h'
      exact ⟨[], rest.flatMap emitEnvLines, by simp⟩
    · rcases ih h' with ⟨s, t, hst⟩
      exact ⟨emitEnvLines a ++ s, t, by simp [← hst]⟩

/-- C10: the generated wrapper script exports exactly the environment keys
outside the skip list {"_", "PWD", "OLDPWD", "LS_COLORS"}, in iteration
order; DEPS_LIST and DEPS_SONAME are emitted as a bash array construct with
one quoted element per ";"-split item (in order) followed by an export of the
key; every other non-skipped key is emitted as a single double-quoted scalar
export; and the block emitted for each environment entry appears contiguously
in the script. -/
theorem buildWrapperScript_exports (env : Env) (mp : String) :
    exportedKeys (buildWrapperScript env mp) =
      (env.map Prod.fst).filter (fun k => k ∉ skipKeys) ∧
    ∀ k v, (k, v) ∈ env →
      (k ∈ skipKeys → emitEnvLines (k, v) = []) ∧
      ((k = "DEPS_LIST" ∨ k = "DEPS_SONAME") →
        emitEnvLines (k, v) =
          SLine.arrayOpen k :: ((splitOnChar ';' v).map SLine.arrayItem ++
            [SLine.arrayClose, SLine.exportKey k])) ∧
      (k ∉ skipKeys → ¬(k = "DEPS_LIST" ∨ k = "DEPS_SONAME") →
        emitEnvLines (k, v) = [SLine.exportAssign k v]) ∧
      emitEnvLines (k, v) <:+: buildWrapperScript env mp := by
  constructor
  · unfold buildWrapperScript
    show exportedKeys ([SLine.shebang, SLine.setex] ++
      (env.flatMap emitEnvLines ++ [SLine.invokeToolchain mp])) = _
    rw [exportedKeys_append, exportedKeys_append]
    have h1 : exportedKeys [SLine.shebang, SLine.setex] = [] := rfl
    have h2 : exportedKeys [SLine.invokeToolchain mp] = [] := rfl
    rw [h1, h2, List.nil_append, List.append_nil]
    induction env with
    | nil => rfl
    | cons a rest ih =>
      obtain ⟨k, v⟩ := a
      rw [List.flatMap_cons, exportedKeys_append, ih]
      rw [exportedKeys_emitEnvLines]
      by_cases hk : k ∈ skipKeys
      · simp [hk]
      · simp [hk]
  · intro k v hm
    refine ⟨?_, ?_, ?_, ?_⟩
    · intro hk
      simp only [emitEnvLines]
      rw [if_pos hk]
    · intro hd
      have hns : k ∉ skipKeys := by
        rcases hd with h | h <;> subst h <;> decide
      simp only [emitEnvLines]
      rw [if_neg hns, if_pos hd]
      exact List.cons_append _ _ _
    · intro hk hd
      simp only [emitEnvLines]
      rw [if_neg hk, if_neg hd]
    · have hmid : env.flatMap emitEnvLines <:+: buildWrapperScript env mp := by
        refine ⟨[SLine.shebang, SLine.setex], [SLine.invokeToolchain mp], ?_⟩
        unfold buildWrapperScript
        simp
      exact (emitEnvLines_infix_flatMap env (k, v) hm).trans hmid

theorem buildWrapperScript_exports_witness :
    exportedKeys (buildWrapperScript demoEnv "/pytorch/.ci/manywheel") =
      (demoEnv.map Prod.fst).filter (fun k => k ∉ skipKeys) ∧
    emitEnvLines ("DEPS_LIST", "/a;/b") =
      SLine.arrayOpen "DEPS_LIST" ::
        ((splitOnChar ';' "/a;/b").map SLine.arrayItem ++
          [SLine.arrayClose, SLine.exportKey "DEPS_LIST"]) ∧
    emitEnvLines ("DEPS_LIST", "/a;/b") <:+:
      buildWrapperScript demoEnv "/pytorch/.ci/manywheel" := by
  have h := buildWrapperScript_exports demoEnv "/pytorch/.ci/manywheel"
  refine ⟨h.1, ?_, ?_⟩
  · exact (h.2 "DEPS_LIST" "/a;/b" (by decide)).2.1 (Or.inl rfl)
  · exact (h.2 "DEPS_LIST" "/a;/b" (by decide)).2.2.2

theorem foldl_recoverStep_copyFails (l : List String) (fs : FS) :
    (l.foldl (fun a _ => recoverStep a) fs).copyFails = fs.copyFails := by
  induction l generalizing fs with
  | nil => rfl
  | cons a rest ih => exact ih (recoverStep fs)

theorem get_manywheel_path_isOk (subprocOk : String → Bool)
    (hs : ∀ c, subprocOk c = true) (v : String)
    (hp : (parseMajorMinor v).isSome) :
    ∃ path, (get_manywheel_path subprocOk v).2 = .ok path := by
  obtain ⟨⟨mj, mn⟩, hpq⟩ := Option.isSome_iff_exists.mp hp
  simp only [get_manywheel_path, hpq, hs, if_true]
  split
  · exact ⟨_, rfl⟩
  · exact ⟨_, rfl⟩

theorem mainLoop_healthy (w : World) (idx : Nat) (pyVers : List String) (fs : FS)
    (hch : w.subprocOk "chmod +x /tmp/build_wrapper.sh" = true)
    (hcf : ∀ p, fs.copyFails p = false) :
    mainLoop w idx pyVers fs =
      ((pyVers.enumFrom idx).flatMap (fun p => iterEvents w p.1 p.2),
        .ok (pyVers.foldl (fun a _ => recoverStep a) fs)) := by
  induction pyVers generalizing idx fs with
  | nil => rfl
  | cons v rest ih =>
    simp only [mainLoop, hch, if_true]
    rw [ensure_wheels_are_saved_ok fs hcf]
    dsimp only
    rw [ih (idx + 1) (recoverStep fs) (by exact hcf)]
    simp [iterEvents, List.enumFrom]

theorem main_healthy (w : World) (v : String) (pyVers : List String)
    (hos : w.osDetectOk = true) (hs : ∀ c, w.subprocOk c = true)
    (hp : (parseMajorMinor v).isSome) (hcf : ∀ p, w.fs.copyFails p = false) :
    main w v pyVers =
      (Ev.subprocOsDetect :: (get_manywheel_path w.subprocOk v).1 ++
        (pyVers.enumFrom 0).flatMap (fun p => iterEvents w p.1 p.2) ++
        [Ev.finalRecoverScan],
       .ok (recoverStep (pyVers.foldl (fun a _ => recoverStep a) w.fs))) := by
  obtain ⟨path, hloc⟩ := get_manywheel_path_isOk w.subprocOk hs v hp
  have hcf2 : ∀ p, (pyVers.foldl (fun a _ => recoverStep a) w.fs).copyFails p = false := by
    intro p
    rw [foldl_recoverStep_copyFails]
    exact hcf p
  simp only [main, hos, if_true, hloc]
  rw [mainLoop_healthy w 0 pyVers w.fs (hs _) hcf]
  simp only []
  rw [ensure_wheels_are_saved_ok _ hcf2]

theorem enumFrom_get_mem (l : List String) (n k : Nat) (hk : k < l.length) :
    (n + k, l.get ⟨k, hk⟩) ∈ l.enumFrom n := by
  induction l generalizing n k with
  | nil => exact absurd hk (Nat.not_lt_zero k)
  | cons a rest ih =>
    cases k with
    | zero => simp [List.enumFrom]
    | succ j =>
      have h2 := ih (n + 1) j (Nat.lt_of_succ_lt_succ hk)
      have harith : n + (j + 1) = (n + 1) + j := by omega
      exact List.mem_cons_of_mem _ (by rw [harith]; exact h2)

/-- C1 counterexample: a run in which the single requested build fails and
zero artifacts are recovered for it, yet the process completes normally
(exit status zero): the orchestrator catches the CalledProcessError, never
records the failure, and derives no exit status from it, so "non-zero exit
iff some build failed execution with zero artifacts" is false. -/
theorem main_exit_zero_despite_failed_build :
    (main failingBuildWorld "2.7.0" ["3.10"]).1 =
      [Ev.subprocOsDetect,
        Ev.subprocChmod "chmod -R +x /pytorch/.ci/manywheel/*.sh",
        Ev.subprocChmodWrapper 0, Ev.runBuild 0 "3.10" false,
        Ev.logBuildFailure 0, Ev.recoverScan 0, Ev.finalRecoverScan] ∧
    (main failingBuildWorld "2.7.0" ["3.10"]).2 = .ok emptyFS ∧
    emptyFS.finalWheels = [] := by
  refine ⟨rfl, rfl, rfl⟩

/-- C1 (amended): the exit status is independent of build outcomes.  Whenever
the version parses, the OS-detection and chmod/clone subprocesses succeed and
no recovery copy raises, the process exits zero — for every build-outcome
oracle, so in particular even when a build failed and zero artifacts were
recovered for it.  A non-zero exit can arise only from those infrastructure
failures, never from the claim's failed-build-and-zero-artifacts condition. -/
theorem main_exit_ignores_build_outcome (w : World) (v : String)
    (pyVers : List String) (hos : w.osDetectOk = true)
    (hs : ∀ c, w.subprocOk c = true) (hp : (parseMajorMinor v).isSome)
    (hcf : ∀ p, w.fs.copyFails p = false) :
    ∃ fs', (main w v pyVers).2 = .ok fs' :=
  ⟨_, by rw [main_healthy w v pyVers hos hs hp hcf]⟩

theorem main_exit_ignores_build_outcome_witness :
    ∃ fs', (main failingBuildWorld "2.4.1" ["3.10", "3.11"]).2 = .ok fs' :=
  main_exit_ignores_build_outcome failingBuildWorld "2.4.1" ["3.10", "3.11"]
    rfl (fun _ => rfl) (by decide) (fun _ => rfl)

/-- C7 counterexample: on an unparsable version string the request does abort
with the parse error, but NOT before any subprocess has run: the trace at the
moment of the abort already contains the OS-detection subprocess that
`setup_cuda_env`/`setup_dependency_bundling` ran before the locator parsed
the version. -/
theorem main_unparsable_after_subprocess :
    main failingBuildWorld "nota.version" ["3.10"] =
      ([Ev.subprocOsDetect], .error .valueError) := rfl

/-- C7 (amended): for every version string that cannot be parsed as
major.minor[.patch], the locator raises ValueError (the spec's
ConfigurationError) and the failure is fatal: the request aborts with
non-zero exit, before any TOOLCHAIN subprocess (chmod/clone), before any
build iteration and before any recovery scan — but after the OS-detection
subprocess of the dependency resolver, which is the sole event in the
trace. -/
theorem main_unparsable_aborts (w : World) (v : String) (pyVers : List String)
    (hos : w.osDetectOk = true) (hp : parseMajorMinor v = none) :
    main w v pyVers = ([Ev.subprocOsDetect], .error .valueError) := by
  simp only [main, hos, if_true, get_manywheel_path, hp]

theorem main_unparsable_aborts_witness :
    main failingBuildWorld "x.y" [] = ([Ev.subprocOsDetect], .error .valueError) :=
  main_unparsable_aborts failingBuildWorld "x.y" [] rfl rfl

/-- C5: partial-success semantics.  Under healthy infrastructure (parse ok,
subprocesses ok, recovery copies ok — a recovery copy failure would abort the
loop, see the scanner claims), for every request: the trace is exactly the
OS-detection and locator prefix, then for each requested runtime version, in
order, that iteration's events — where an iteration whose toolchain run exits
non-zero contributes its chmod and failed-run events followed by the failure
log and then that iteration's recovery scan — and one final recovery scan as
the very last event.  Consequently every requested version k has its build
attempted (and, if it failed, logged and scanned) and the loop still reaches
every later version. -/
theorem main_partial_success (w : World) (v : String) (pyVers : List String)
    (hos : w.osDetectOk = true) (hs : ∀ c, w.subprocOk c = true)
    (hp : (parseMajorMinor v).isSome) (hcf : ∀ p, w.fs.copyFails p = false) :
    (main w v pyVers).1 =
      Ev.subprocOsDetect :: (get_manywheel_path w.subprocOk v).1 ++
        (pyVers.enumFrom 0).flatMap (fun p => iterEvents w p.1 p.2) ++
        [Ev.finalRecoverScan] ∧
    (∀ k, ∀ hk : k < pyVers.length,
      Ev.runBuild k (pyVers.get ⟨k, hk⟩) (w.buildOk k) ∈ (main w v pyVers).1 ∧
      (w.buildOk k = false →
        iterEvents w k (pyVers.get ⟨k, hk⟩) =
          [Ev.subprocChmodWrapper k, Ev.runBuild k (pyVers.get ⟨k, hk⟩) false,
            Ev.logBuildFailure k, Ev.recoverScan k] ∧
        Ev.logBuildFailure k ∈ (main w v pyVers).1 ∧
        Ev.recoverScan k ∈ (main w v pyVers).1)) ∧
    (main w v pyVers).1.getLast? = some Ev.finalRecoverScan := by
  have hm := main_healthy w v pyVers hos hs hp hcf
  have htr : (main w v pyVers).1 =
      Ev.subprocOsDetect :: (get_manywheel_path w.subprocOk v).1 ++
        (pyVers.enumFrom 0).flatMap (fun p => iterEvents w p.1 p.2) ++
        [Ev.finalRecoverScan] := by
    rw [hm]
  refine ⟨htr, ?_, ?_⟩
  · intro k hk
    have hmem : (0 + k, pyVers.get ⟨k, hk⟩) ∈ pyVers.enumFrom 0 :=
      enumFrom_get_mem pyVers 0 k hk
    rw [Nat.zero_add] at hmem
    have hlift : ∀ e, e ∈ iterEvents w k (pyVers.get ⟨k, hk⟩) →
        e ∈ (main w v pyVers).1 := by
      intro e he
      rw [htr]
      refine List.mem_append_left _ (List.mem_append_right _ ?_)
      exact List.mem_flatMap.mpr ⟨(k, pyVers.get ⟨k, hk⟩), hmem, he⟩
    constructor
    · exact hlift _ (by simp [iterEvents])
    · intro hbf
      refine ⟨by simp [iterEvents, hbf], ?_, ?_⟩
      · exact hlift _ (by simp [iterEvents, hbf])
      · exact hlift _ (by simp [iterEvents])
  · rw [htr]
    rw [show Ev.subprocOsDetect :: (get_manywheel_path w.subprocOk v).1 ++
        (pyVers.enumFrom 0).flatMap (fun p => iterEvents w p.1 p.2) ++
        [Ev.finalRecoverScan] =
      (Ev.subprocOsDetect :: (get_manywheel_path w.subprocOk v).1 ++
        (pyVers.enumFrom 0).flatMap (fun p => iterEvents w p.1 p.2)) ++
        [Ev.finalRecoverScan] from rfl]
    exact List.getLast?_concat _

theorem main_partial_success_witness :
    (main failingBuildWorld "2.7.0" ["3.10", "3.11"]).1 =
      Ev.subprocOsDetect ::
        (get_manywheel_path failingBuildWorld.subprocOk "2.7.0").1 ++
        (["3.10", "3.11"].enumFrom 0).flatMap
          (fun p => iterEvents failingBuildWorld p.1 p.2) ++
        [Ev.finalRecoverScan] ∧
    (∀ k, ∀ hk : k < (["3.10", "3.11"] : List String).length,
      Ev.runBuild k ((["3.10", "3.11"] : List String).get ⟨k, hk⟩)
          (failingBuildWorld.buildOk k) ∈
        (main failingBuildWorld "2.7.0" ["3.10", "3.11"]).1 ∧
      (failingBuildWorld.buildOk k = false →
        iterEvents failingBuildWorld k ((["3.10", "3.11"] : List String).get ⟨k, hk⟩) =
          [Ev.subprocChmodWrapper k,
            Ev.runBuild k ((["3.10", "3.11"] : List String).get ⟨k, hk⟩) false,
            Ev.logBuildFailure k, Ev.recoverScan k] ∧
        Ev.logBuildFailure k ∈ (main failingBuildWorld "2.7.0" ["3.10", "3.11"]).1 ∧
        Ev.recoverScan k ∈ (main failingBuildWorld "2.7.0" ["3.10", "3.11"]).1)) ∧
    (main failingBuildWorld "2.7.0" ["3.10", "3.11"]).1.getLast? =
      some Ev.finalRecoverScan :=
  main_partial_success failingBuildWorld "2.7.0" ["3.10", "3.11"]
    rfl (fun _ => rfl) (by decide) (fun _ => rfl)

end BuildPytorch
